import Mathlib

/-
Verification of the account-move CSV import core
(wizard import_move.py): format decoders, the entry grouping
and balancing scan of create_moves_from_pivot, and the tag based
reconciliation matcher reconcile_move_lines.

Monetary amounts are modelled as rationals.  Python dict values that can
be False are modelled with Option (none = False); dict keys that can be
missing are modelled with the PyDictVal type further down.
-/

namespace AccountMoveImport

/-! ## Python string and number primitives used by the decoders -/

/-- Numeric value of a list of decimal digit characters. -/
def digitsVal (cs : List Char) : Nat :=
  cs.foldl (fun a c => a * 10 + (c.toNat - 48)) 0

/-- Python whitespace for the stripping float() and int() perform. -/
def isPySpace (c : Char) : Bool :=
  c = ' ' || c = '\t' || c = '\n' || c = '\r'

/-- Strip surrounding whitespace from a character list. -/
def pyStrip (cs : List Char) : List Char :=
  ((cs.dropWhile isPySpace).reverse.dropWhile isPySpace).reverse

/-- Python float() on a decimal string: surrounding whitespace allowed,
optional sign, integer and fractional digit parts with at least one digit.
Exponent, inf and nan spellings are not modelled; no input of this
development uses them. -/
def pyFloat (s : String) : Option ℚ :=
  let t := pyStrip s.toList
  let signed : ℚ × List Char :=
    match t with
    | '-' :: r => (-1, r)
    | '+' :: r => (1, r)
    | r => (1, r)
  let ip := signed.2.takeWhile Char.isDigit
  let rest := signed.2.dropWhile Char.isDigit
  match rest with
  | [] => if ip.isEmpty then none else some (signed.1 * (digitsVal ip : ℚ))
  | '.' :: fp =>
      if fp.all Char.isDigit && !(ip.isEmpty && fp.isEmpty) then
        some (signed.1 * ((digitsVal ip : ℚ) + (digitsVal fp : ℚ) / (10 ^ fp.length)))
      else none
  | _ => none

/-- Python int() on a decimal string: surrounding whitespace allowed,
optional sign, then a nonempty run of digits. -/
def pyInt (s : String) : Option Int :=
  let t := pyStrip s.toList
  let signed : Int × List Char :=
    match t with
    | '-' :: r => (-1, r)
    | '+' :: r => (1, r)
    | r => (1, r)
  if !signed.2.isEmpty && signed.2.all Char.isDigit then
    some (signed.1 * (digitsVal signed.2 : Int))
  else none

/-- Python s.replace applied with a comma and a period. -/
def commaToDot (s : String) : String :=
  String.mk (s.toList.map (fun c => if c = ',' then '.' else c))

/-- Field i of a csv record as DictReader returns it: None (here none)
when the row is shorter than the field list. -/
def getF (row : List String) (i : Nat) : Option String :=
  row.get? i

/-- Python truthiness of a DictReader field: None and the empty string
are falsy. -/
def strTruthy : Option String → Bool
  | none => false
  | some s => !s.isEmpty

/-- Python (x or dflt) over a DictReader field. -/
def orStr (v : Option String) (dflt : String) : String :=
  match v with
  | none => dflt
  | some s => if s.isEmpty then dflt else s

/-! ## Date parsing (datetime.strptime per fixed pattern)

Each validator models the digit shape and the day and month ranges that
strptime enforces; month specific day counts and leap years are not
modelled, and no claim of this development depends on them. -/

def allDigits (cs : List Char) : Bool := cs.all Char.isDigit

def twoDigitsAt (cs : List Char) (i : Nat) : Nat := digitsVal ((cs.drop i).take 2)

def dmOK (d m : Nat) : Bool :=
  decide (1 ≤ d) && decide (d ≤ 31) && decide (1 ≤ m) && decide (m ≤ 12)

/-- strptime pattern ddmmYYYY packed without separators. -/
def strptimeDDMMYYYY (s : String) : Bool :=
  let cs := s.toList
  decide (cs.length = 8) && allDigits cs && dmOK (twoDigitsAt cs 0) (twoDigitsAt cs 2)

/-- strptime pattern ddmmyy packed without separators. -/
def strptimeDDMMYY (s : String) : Bool :=
  let cs := s.toList
  decide (cs.length = 6) && allDigits cs && dmOK (twoDigitsAt cs 0) (twoDigitsAt cs 2)

/-- strptime pattern yymmdd packed without separators. -/
def strptimeYYMMDD (s : String) : Bool :=
  let cs := s.toList
  decide (cs.length = 6) && allDigits cs && dmOK (twoDigitsAt cs 4) (twoDigitsAt cs 2)

/-- strptime pattern dd/mm/YYYY with slash separators. -/
def strptimeDDsMMsYYYY (s : String) : Bool :=
  let cs := s.toList
  decide (cs.length = 10) && decide (cs.getD 2 ' ' = '/') && decide (cs.getD 5 ' ' = '/') &&
    allDigits (cs.take 2) && allDigits ((cs.drop 3).take 2) && allDigits (cs.drop 6) &&
    dmOK (twoDigitsAt cs 0) (twoDigitsAt cs 3)

/-! ## The two zero tests the source calls

Odoo float_is_zero(value, ...) resolves an epsilon and returns
abs(float_round(value, precision_rounding=epsilon)) < epsilon, which for
half away from zero rounding is abs(value) < epsilon / 2.
With precision_rounding=prec the epsilon is prec itself (the call made by
create_moves_from_pivot); with precision_digits=d the epsilon is
10 ** (-d) (the call made by reconcile_move_lines, which passes the
currency rounding increment in the digits slot). -/

/-- Absolute value on ℚ, spelled out. -/
def ratAbs (x : ℚ) : ℚ := if x < 0 then -x else x

lemma ratAbs_eq_abs (x : ℚ) : ratAbs x = |x| := by
  unfold ratAbs
  rcases lt_or_le x 0 with h | h
  · rw [if_pos h, abs_of_neg h]
  · rw [if_neg (not_lt.mpr h), abs_of_nonneg h]

/-- float_is_zero with precision_rounding=prec: |x| < prec / 2. -/
def float_is_zero_rounding (prec x : ℚ) : Bool := decide (ratAbs x < prec / 2)

lemma float_is_zero_rounding_iff (prec x : ℚ) :
    float_is_zero_rounding prec x = true ↔ |x| < prec / 2 := by
  unfold float_is_zero_rounding
  rw [ratAbs_eq_abs]
  exact decide_eq_true_iff

/-- float_is_zero with precision_digits=d: |x| < 10 ** (-d) / 2.
Stated over the reals because the exponent is a non integer float. -/
def float_is_zero_digits (d x : ℚ) : Prop :=
  |(x : ℝ)| < (10 : ℝ) ^ (-(d : ℝ)) / 2

lemma ten_rpow_neg_centi_pos : (0 : ℝ) < (10 : ℝ) ^ (-(1 / 100 : ℝ)) :=
  Real.rpow_pos_of_pos (by norm_num) _

lemma ten_rpow_neg_centi_pow :
    ((10 : ℝ) ^ (-(1 / 100 : ℝ))) ^ (100 : ℕ) = 1 / 10 := by
  rw [← Real.rpow_natCast ((10 : ℝ) ^ (-(1 / 100 : ℝ))) 100,
    ← Real.rpow_mul (by norm_num : (0 : ℝ) ≤ 10)]
  have h : (-(1 / 100 : ℝ)) * (100 : ℕ) = ((-1 : ℤ) : ℝ) := by push_cast; ring
  rw [h, Real.rpow_intCast]
  norm_num

lemma ten_rpow_neg_centi_gt : (2 / 5 : ℝ) < (10 : ℝ) ^ (-(1 / 100 : ℝ)) := by
  have h2 : (2 / 5 : ℝ) ^ (100 : ℕ) < ((10 : ℝ) ^ (-(1 / 100 : ℝ))) ^ (100 : ℕ) := by
    rw [ten_rpow_neg_centi_pow]
    norm_num
  exact lt_of_pow_lt_pow_left₀ 100 (le_of_lt ten_rpow_neg_centi_pos) h2

lemma float_is_zero_digits_centi_fifth : float_is_zero_digits (1 / 100) (1 / 5) := by
  unfold float_is_zero_digits
  have h : ((1 / 100 : ℚ) : ℝ) = (1 / 100 : ℝ) := by norm_num
  rw [h]
  have := ten_rpow_neg_centi_gt
  rw [show |((1 / 5 : ℚ) : ℝ)| = (1 / 5 : ℝ) by rw [abs_of_pos] <;> norm_num]
  linarith

lemma float_is_zero_digits_centi_zero : float_is_zero_digits (1 / 100) 0 := by
  unfold float_is_zero_digits
  have h : ((1 / 100 : ℚ) : ℝ) = (1 / 100 : ℝ) := by norm_num
  rw [h]
  have := ten_rpow_neg_centi_pos
  rw [show |((0 : ℚ) : ℝ)| = (0 : ℝ) by norm_num]
  linarith

/-! ## Decoder output records

Each decoder gets a record type holding exactly the keys its vals dict
carries.  Option ℚ models an amount slot that can hold Python False
(the x and y or z idiom); PyDictVal models an optional dict entry. -/

/-- Presence and value of an optional entry of a pivot dict:
the key can be missing, hold False, or hold a reference dict with a code
(or, for partners, a ref) string. -/
inductive PyDictVal
  | absent
  | pyFalse
  | code (s : String)
deriving Repr, DecidableEq

/-- Numeric reading of an amount slot: Python False compares equal to 0.0. -/
def pyNum (v : Option ℚ) : ℚ := v.getD 0

/-- Errors a decoder can raise, by Python exception class. -/
inductive DecodeErr
  | valueError
  | typeError
  | indexError
  | attributeError
deriving Repr, DecidableEq

def ofOption {α : Type} (e : DecodeErr) : Option α → Except DecodeErr α
  | none => .error e
  | some a => .ok a

instance exceptDecEq {ε α : Type} [DecidableEq ε] [DecidableEq α] :
    DecidableEq (Except ε α) := fun a b =>
  match a, b with
  | .error e, .error f =>
      if h : e = f then isTrue (h ▸ rfl) else isFalse (fun hh => h (Except.error.inj hh))
  | .ok x, .ok y =>
      if h : x = y then isTrue (h ▸ rfl) else isFalse (fun hh => h (Except.ok.inj hh))
  | .error _, .ok _ => isFalse (fun hh => Except.noConfusion hh)
  | .ok _, .error _ => isFalse (fun hh => Except.noConfusion hh)

/-! ## extenso2pivot

Tab separated records; fields: 0 journal, 1 date, 3 account, 8 debit,
9 credit.  Decoders are modelled from the csv record level up: a file is
a list of records, each record the list of its string fields. -/

structure ExtPivot where
  journal : Option String
  account : Option String
  credit : ℚ
  debit : ℚ
  date : String
  line : Nat
deriving Repr, DecidableEq

def extensoRow (i : Nat) (row : List String) : Except DecodeErr ExtPivot :=
  match pyFloat (commaToDot (orStr (getF row 9) "0")) with
  | none => .error .valueError
  | some credit =>
    match pyFloat (commaToDot (orStr (getF row 8) "0")) with
    | none => .error .valueError
    | some debit =>
      match getF row 1 with
      | none => .error .typeError
      | some dateS =>
          if strptimeDDMMYYYY dateS then
            .ok { journal := getF row 0, account := getF row 3,
                  credit := credit, debit := debit, date := dateS, line := i }
          else .error .valueError

def extensoScan (i : Nat) : List (List String) → Except DecodeErr (List ExtPivot)
  | [] => .ok []
  | r :: rs =>
      match extensoRow (i + 1) r with
      | .error e => .error e
      | .ok p =>
          match extensoScan (i + 1) rs with
          | .error e => .error e
          | .ok ps => .ok (p :: ps)

def extenso2pivot (rows : List (List String)) : Except DecodeErr (List ExtPivot) :=
  extensoScan 0 rows

/-! ## cielpaye2pivot

Tab separated records; fields: 1 journal, 2 date, 3 account, 5 amount,
6 sign, 8 name.  A record is skipped unless date, name and amount are
all truthy. -/

structure CielPivot where
  journal : Option String
  account : Option String
  credit : ℚ
  debit : ℚ
  date : String
  name : String
  line : Nat
deriving Repr, DecidableEq

def cielpayeRow (i : Nat) (row : List String) : Except DecodeErr (Option CielPivot) :=
  if strTruthy (getF row 2) && strTruthy (getF row 8) && strTruthy (getF row 5) then
    match pyFloat (commaToDot ((getF row 5).getD "")) with
    | none => .error .valueError
    | some amount =>
        if strptimeDDsMMsYYYY ((getF row 2).getD "") then
          .ok (some { journal := getF row 1, account := getF row 3,
                      credit := if getF row 6 = some "C" ∧ amount ≠ 0 then amount else 0,
                      debit := if getF row 6 = some "D" ∧ amount ≠ 0 then amount else 0,
                      date := (getF row 2).getD "", name := (getF row 8).getD "", line := i })
        else .error .valueError
  else .ok none

def cielpayeScan (i : Nat) : List (List String) → Except DecodeErr (List CielPivot)
  | [] => .ok []
  | r :: rs =>
      match cielpayeRow (i + 1) r with
      | .error e => .error e
      | .ok p =>
          match cielpayeScan (i + 1) rs with
          | .error e => .error e
          | .ok ps =>
              match p with
              | some v => .ok (v :: ps)
              | none => .ok ps

def cielpaye2pivot (rows : List (List String)) : Except DecodeErr (List CielPivot) :=
  cielpayeScan 0 rows

/-! ## quadra2pivot

Fixed width rows over the raw decoded file string, split on newline.
A row shorter than 54 characters is skipped; a data row starts with M
and has C or D at offset 41; the amount is the integer at offsets 42:55
divided by 100. -/

structure QPivot where
  journal : String
  account : String
  credit : Option ℚ
  debit : Option ℚ
  date : String
  name : String
  line : Nat
deriving Repr, DecidableEq

def quadraAmtStr (l : String) : String := String.mk ((l.toList.drop 42).take 13)

/-- The pivot record built from one accepted fixed width row, given the
parsed integer amount in cents. -/
def quadraVals (i : Nat) (l : String) (cents : Int) : QPivot :=
  { journal := String.mk ((l.toList.drop 9).take 2),
    account := String.mk ((l.toList.drop 1).take 8),
    credit := if l.toList.getD 41 ' ' = 'C' ∧ (cents : ℚ) / 100 ≠ 0
      then some ((cents : ℚ) / 100) else none,
    debit := if l.toList.getD 41 ' ' = 'D' ∧ (cents : ℚ) / 100 ≠ 0
      then some ((cents : ℚ) / 100) else none,
    date := String.mk ((l.toList.drop 14).take 6),
    name := String.mk ((l.toList.drop 21).take 20),
    line := i }

def quadraScan (i : Nat) : List String → Except DecodeErr (List QPivot)
  | [] => .ok []
  | l :: ls =>
      if l.length < 54 then quadraScan (i + 1) ls
      else
        if l.toList.getD 0 ' ' = 'M'
            && (l.toList.getD 41 ' ' = 'C' || l.toList.getD 41 ' ' = 'D') then
          match pyInt (quadraAmtStr l) with
          | none => .error .valueError
          | some cents =>
              if strptimeDDMMYY (String.mk ((l.toList.drop 14).take 6)) then
                match quadraScan (i + 1) ls with
                | .error e => .error e
                | .ok ps => .ok (quadraVals (i + 1) l cents :: ps)
              else .error .valueError
        else quadraScan (i + 1) ls

def quadra2pivot (fileStr : String) : Except DecodeErr (List QPivot) :=
  quadraScan 0 (fileStr.splitOn "\n")

/-! ## genericcsv2pivot

Comma separated records; fields: 0 date, 1 journal, 2 account, 3 partner,
4 analytic, 5 name, 6 debit, 7 credit.  Partner and analytic keys are set
only when the source field is truthy. -/

structure GenPivot where
  journal : Option String
  account : Option String
  credit : ℚ
  debit : ℚ
  date : String
  name : Option String
  line : Nat
  partner : PyDictVal
  analytic : PyDictVal
deriving Repr, DecidableEq

def genFloatOrZero (v : Option String) : Except DecodeErr ℚ :=
  match v with
  | none => .ok 0
  | some s => if s.isEmpty then .ok 0 else ofOption .valueError (pyFloat s)

def genRow (i : Nat) (row : List String) : Except DecodeErr GenPivot :=
  match genFloatOrZero (getF row 7) with
  | .error e => .error e
  | .ok credit =>
    match genFloatOrZero (getF row 6) with
    | .error e => .error e
    | .ok debit =>
      match getF row 0 with
      | none => .error .typeError
      | some dateS =>
          if strptimeDDsMMsYYYY dateS then
            .ok { journal := getF row 1, account := getF row 2,
                  credit := credit, debit := debit, date := dateS, name := getF row 5,
                  line := i,
                  partner := if strTruthy (getF row 3) then .code ((getF row 3).getD "")
                    else .absent,
                  analytic := if strTruthy (getF row 4) then .code ((getF row 4).getD "")
                    else .absent }
          else .error .valueError

def genericcsvScan (i : Nat) : List (List String) → Except DecodeErr (List GenPivot)
  | [] => .ok []
  | r :: rs =>
      match genRow (i + 1) r with
      | .error e => .error e
      | .ok p =>
          match genericcsvScan (i + 1) rs with
          | .error e => .error e
          | .ok ps => .ok (p :: ps)

def genericcsv2pivot (rows : List (List String)) : Except DecodeErr (List GenPivot) :=
  genericcsvScan 0 rows

/-! ## nibelis2pivot

Semicolon separated records, first record skipped as header; fields:
2 journal, 7 date, 14 account, 17 amount, 19 sign, 22 name, 31 analytic.
The analytic key is always present: it holds a code dict when the source
field is truthy and False otherwise. -/

structure NibPivot where
  journal : Option String
  account : Option String
  analytic : PyDictVal
  credit : Option ℚ
  debit : Option ℚ
  date : String
  name : Option String
  line : Nat
deriving Repr, DecidableEq

def nibRow (i : Nat) (row : List String) : Except DecodeErr NibPivot :=
  match getF row 17 with
  | none => .error .attributeError
  | some amountS =>
    match pyFloat (commaToDot amountS) with
    | none => .error .valueError
    | some amount =>
      match getF row 7 with
      | none => .error .typeError
      | some dateS =>
          if strptimeYYMMDD dateS then
            .ok { journal := getF row 2, account := getF row 14,
                  analytic := if strTruthy (getF row 31) then .code ((getF row 31).getD "")
                    else .pyFalse,
                  credit := if getF row 19 = some "C" ∧ amount ≠ 0 then some amount else none,
                  debit := if getF row 19 = some "D" ∧ amount ≠ 0 then some amount else none,
                  date := dateS, name := getF row 22, line := i }
          else .error .valueError

def nibelisScan : Nat → List (List String) → Except DecodeErr (List NibPivot)
  | _, [] => .ok []
  | i, r :: rs =>
      if i + 1 = 1 then nibelisScan (i + 1) rs
      else
        match nibRow (i + 1) r with
        | .error e => .error e
        | .ok p =>
            match nibelisScan (i + 1) rs with
            | .error e => .error e
            | .ok ps => .ok (p :: ps)

def nibelis2pivot (rows : List (List String)) : Except DecodeErr (List NibPivot) :=
  nibelisScan 0 rows

/-! ## payfit2pivot

Rows of the second workbook sheet; cells are modelled by their Python
str() image, a blank cell being the empty string.  First row skipped;
a row is skipped when its leading cell is blank or, after stripping the
suffix that follows the first period, does not start with a digit. -/

structure PayPivot where
  account : String
  name : String
  debit : ℚ
  credit : ℚ
  line : Nat
  analytic : PyDictVal
deriving Repr, DecidableEq

def payFloatOrZero (v : Option String) : Except DecodeErr ℚ :=
  match v with
  | none => .ok 0
  | some s => if s.isEmpty then .ok 0 else ofOption .valueError (pyFloat s)

/-- The account cell after the split at the first period. -/
def payAccount (r0 : String) : String :=
  if r0.toList.contains '.' then String.mk (r0.toList.takeWhile (fun c => c ≠ '.'))
  else r0

def payfitRow (i : Nat) (row : List String) : Except DecodeErr (Option PayPivot) :=
  if ((getF row 0).getD "").isEmpty then .ok none
  else
    match (payAccount ((getF row 0).getD "")).toList.head? with
    | none => .error .indexError
    | some c =>
        if !c.isDigit then .ok none
        else
          match payFloatOrZero (getF row 5) with
          | .error e => .error e
          | .ok debit =>
            match payFloatOrZero (getF row 6) with
            | .error e => .error e
            | .ok credit =>
                .ok (some { account := payAccount ((getF row 0).getD ""), name := "Paye",
                            debit := debit, credit := credit, line := i,
                            analytic := if !((getF row 3).getD "").isEmpty
                              then .code ((getF row 3).getD "") else .absent })

def payfitScan : Nat → List (List String) → Except DecodeErr (List PayPivot)
  | _, [] => .ok []
  | i, r :: rs =>
      if i + 1 = 1 then payfitScan (i + 1) rs
      else
        match payfitRow (i + 1) r with
        | .error e => .error e
        | .ok p =>
            match payfitScan (i + 1) rs with
            | .error e => .error e
            | .ok ps =>
                match p with
                | some v => .ok (v :: ps)
                | none => .ok ps

def payfit2pivot (rows : List (List String)) : Except DecodeErr (List PayPivot) :=
  payfitScan 0 rows

/-! ## create_moves_from_pivot

Phase 1 walks every pivot line, resolves account, partner, analytic and
journal through the external matcher and validates label, date, credit
and debit.  Phase 2 is the grouping scan: state made of the sealed moves,
the current key (journal id, ref, date), the running balance and the open
move.  External calls are recorded in a trace so that the absence of
creation calls on failure is observable. -/

/-- A pivot line as the assembler sees it (after update_pivot).
Amount slots of type Option ℚ: none models a non float value, which the
isinstance checks reject. -/
structure PivotLine where
  line : Nat
  journal : String
  account : String
  partner : Option String
  analytic : Option String
  name : Option String
  date : Option String
  credit : Option ℚ
  debit : Option ℚ
  ref : Option String
deriving Repr, DecidableEq

/-- A pivot line after phase 1: references resolved, fields validated. -/
structure VLine where
  line : Nat
  journalId : Nat
  ref : Option String
  date : String
  credit : ℚ
  debit : ℚ
deriving Repr, DecidableEq

/-- The move dict built by _prepare_move plus its line_ids list. -/
structure Move where
  journalId : Nat
  ref : Option String
  date : String
  lines : List VLine
deriving Repr, DecidableEq

/-- Sum of credit minus debit over the lines of one move. -/
def moveBalance (m : Move) : ℚ :=
  (m.lines.map (fun l => l.credit - l.debit)).sum

/-- External collaborator: the business document import matchers.
A none result is the NotFound failure of the resolver. -/
structure Resolver where
  account : String → Option Nat
  partner : String → Option Nat
  analytic : String → Option Nat
  journal : String → Option Nat

/-- Calls issued to the external ledger system. -/
inductive ExtCall
  | matchAccount (r : String)
  | matchPartner (r : String)
  | matchAnalytic (r : String)
  | matchJournal (r : String)
  | create (m : Move)
  | post
deriving Repr, DecidableEq

def isCreate : ExtCall → Bool
  | .create _ => true
  | _ => false

inductive ValErr
  | accountNotFound (line : Nat)
  | partnerNotFound (line : Nat)
  | analyticNotFound (line : Nat)
  | journalNotFound (line : Nat)
  | missingLabel (line : Nat)
  | missingDate (line : Nat)
  | badCredit (line : Nat)
  | badDebit (line : Nat)
deriving Repr, DecidableEq

/-- Phase 1 for one pivot line, returning the resolver calls it issued
and either the validated line or the UserError it raised. -/
def validateLine (res : Resolver) (l : PivotLine) : List ExtCall × Except ValErr VLine :=
  let evA : List ExtCall := [.matchAccount l.account]
  match res.account l.account with
  | none => (evA, .error (.accountNotFound l.line))
  | some _ =>
    let evP : List ExtCall := match l.partner with
      | some p => [.matchPartner p]
      | none => []
    let okP : Bool := match l.partner with
      | some p => (res.partner p).isSome
      | none => true
    if !okP then (evA ++ evP, .error (.partnerNotFound l.line))
    else
      let evAn : List ExtCall := match l.analytic with
        | some a => [.matchAnalytic a]
        | none => []
      let okAn : Bool := match l.analytic with
        | some a => (res.analytic a).isSome
        | none => true
      if !okAn then (evA ++ evP ++ evAn, .error (.analyticNotFound l.line))
      else
        let evs := evA ++ evP ++ evAn ++ [ExtCall.matchJournal l.journal]
        match res.journal l.journal with
        | none => (evs, .error (.journalNotFound l.line))
        | some jid =>
            if !strTruthy l.name then (evs, .error (.missingLabel l.line))
            else if !strTruthy l.date then (evs, .error (.missingDate l.line))
            else match l.credit with
              | none => (evs, .error (.badCredit l.line))
              | some c => match l.debit with
                | none => (evs, .error (.badDebit l.line))
                | some d => (evs, .ok ⟨l.line, jid, l.ref, l.date.getD "", c, d⟩)

/-- Phase 1 over the whole pivot list, in input order, stopping at the
first raised error. -/
def validateAll (res : Resolver) : List PivotLine → List ExtCall × Except ValErr (List VLine)
  | [] => ([], .ok [])
  | l :: ls =>
    let r := validateLine res l
    match r.2 with
    | .error e => (r.1, .error e)
    | .ok v =>
      let rs := validateAll res ls
      (r.1 ++ rs.1, match rs.2 with
        | .error e => .error e
        | .ok vs => .ok (v :: vs))

inductive GroupErr
  | notBalanced (line : Int) (balance : ℚ)
  | notBalancedLast (balance : ℚ)
  | singleLineMove
  | keyError
deriving Repr, DecidableEq

/-- State of the grouping scan: cur_journal_id, cur_ref and cur_date are
initially False (none); cur_balance starts at 0.0 and is only ever added
to; cur_move starts as the empty dict (none). -/
structure ScanState where
  moves : List Move
  curJournalId : Option Nat
  curRef : Option String
  curDate : Option String
  curBalance : ℚ
  curMove : Option Move
deriving Repr, DecidableEq

def initScanState : ScanState := ⟨[], none, none, none, 0, none⟩

/-- The grouping condition of the scan: the line key equals the current
key (ref first, as in the source). -/
def keyMatches (s : ScanState) (l : VLine) : Bool :=
  decide (s.curRef = l.ref) && decide (s.curJournalId = some l.journalId) &&
    decide (s.curDate = some l.date)

def appendLine (m : Move) (l : VLine) : Move := { m with lines := m.lines ++ [l] }

def newMoveFrom (l : VLine) : Move :=
  { journalId := l.journalId, ref := l.ref, date := l.date, lines := [l] }

/-- One iteration of the grouping loop.  The balance guard of the new
move branch tests that the sealed move list is nonempty, exactly as the
source does, and the two or more lines assertion guards only the seals
performed inside the loop. -/
def scanStep (prec : ℚ) (s : ScanState) (l : VLine) : Except GroupErr ScanState :=
  if keyMatches s l && !float_is_zero_rounding prec s.curBalance then
    match s.curMove with
    | some m =>
        .ok { s with curMove := some (appendLine m l),
                     curBalance := s.curBalance + (l.credit - l.debit) }
    | none => .error .keyError
  else
    if !s.moves.isEmpty && !float_is_zero_rounding prec s.curBalance then
      .error (.notBalanced ((l.line : Int) - 1) s.curBalance)
    else
      match s.curMove with
      | some m =>
          if m.lines.length > 1 then
            .ok { moves := s.moves ++ [m], curJournalId := some l.journalId,
                  curRef := l.ref, curDate := some l.date,
                  curBalance := s.curBalance + (l.credit - l.debit),
                  curMove := some (newMoveFrom l) }
          else .error .singleLineMove
      | none =>
          .ok { moves := s.moves, curJournalId := some l.journalId,
                curRef := l.ref, curDate := some l.date,
                curBalance := s.curBalance + (l.credit - l.debit),
                curMove := some (newMoveFrom l) }

def scanLines (prec : ℚ) : ScanState → List VLine → Except GroupErr ScanState
  | s, [] => .ok s
  | s, l :: ls =>
      match scanStep prec s l with
      | .ok s2 => scanLines prec s2 ls
      | .error e => .error e

/-- Phase 2: run the scan from the initial state, seal the still open
move, then check the final running balance. -/
def groupMoves (prec : ℚ) (lines : List VLine) : Except GroupErr (List Move) :=
  match scanLines prec initScanState lines with
  | .error e => .error e
  | .ok s =>
      let allMoves := match s.curMove with
        | some m => s.moves ++ [m]
        | none => s.moves
      if float_is_zero_rounding prec s.curBalance then .ok allMoves
      else .error (.notBalancedLast s.curBalance)

inductive ImpErr
  | validation (e : ValErr)
  | grouping (e : GroupErr)
deriving Repr, DecidableEq

/-- The whole of create_moves_from_pivot: phase 1 over every line, then
the grouping scan, then one creation call per move (and a posting call
when requested), with the trace of external calls. -/
def create_moves_from_pivot (res : Resolver) (prec : ℚ) (postFlag : Bool)
    (pivot : List PivotLine) : List ExtCall × Except ImpErr (List Move) :=
  let v := validateAll res pivot
  match v.2 with
  | .error e => (v.1, .error (.validation e))
  | .ok vlines =>
    match groupMoves prec vlines with
    | .error e => (v.1, .error (.grouping e))
    | .ok moves =>
        (v.1 ++ moves.map ExtCall.create ++ (if postFlag then [ExtCall.post] else []),
         .ok moves)

/-! ## reconcile_move_lines

Lines carrying a reconcile mark are grouped by mark (insertion order,
as a Python dict); each group is tested by the five rules in source
order.  The skip log of the different partners rule joins the partner
dict keys, which are ints or False, with str.join: that join raises
TypeError on any nonempty list of such keys. -/

structure Account where
  id : Nat
  code : String
  reconcile : Bool
deriving Repr, DecidableEq

/-- A created move line as the matcher reads it. -/
structure RecLine where
  importReconcile : Option String
  credit : ℚ
  debit : ℚ
  account : Account
  partnerId : Option Nat
deriving Repr, DecidableEq

/-- Insertion into a Python dict key list: keeps first insertion order. -/
def dictInsert {α : Type} [DecidableEq α] (d : List α) (k : α) : List α :=
  if k ∈ d then d else d ++ [k]

/-- The accumulation loop over one group: total, accounts dict keys,
partners dict keys (partner id or False). -/
def recGroupTotals (ls : List RecLine) : ℚ × List Account × List (Option Nat) :=
  ls.foldl
    (fun acc l =>
      (acc.1 + l.credit - l.debit, dictInsert acc.2.1 l.account,
        dictInsert acc.2.2 l.partnerId))
    (0, [], [])

/-- Python str.join over the partner dict keys of the skip log: every key
is an int or False, never a string, so the join raises TypeError whenever
the list is nonempty. -/
def joinPartnerKeys (ks : List (Option Nat)) : Except String String :=
  match ks with
  | [] => .ok ""
  | _ :: _ => .error "TypeError: sequence item 0: expected str instance"

inductive RecOutcome
  | skippedSingleLine
  | skippedUnbalanced (total : ℚ)
  | skippedSeveralAccounts
  | skippedAccountNotReconcilable
  | skippedSeveralPartners
  | reconciled
deriving Repr, DecidableEq

/-- Decision for one reconcile mark.  isZeroTotal stands for the call
float_is_zero(total, precision_digits=prec) of the source; it is kept
abstract because its epsilon, 10 ** (-prec), is irrational
(see float_is_zero_digits). -/
def recDecision (isZeroTotal : ℚ → Bool) (ls : List RecLine) : Except String RecOutcome :=
  if ls.length < 2 then .ok .skippedSingleLine
  else
    let t := recGroupTotals ls
    if !isZeroTotal t.1 then .ok (.skippedUnbalanced t.1)
    else if t.2.1.length > 1 then .ok .skippedSeveralAccounts
    else if !(t.2.1.headD ⟨0, "", false⟩).reconcile then .ok .skippedAccountNotReconcilable
    else if t.2.2.length > 1 then
      match joinPartnerKeys t.2.2 with
      | .error e => .error e
      | .ok _ => .ok .skippedSeveralPartners
    else .ok .reconciled

/-- Add one tagged line to the ordered group list. -/
def addToGroups (gs : List (String × List RecLine)) (tag : String) (l : RecLine) :
    List (String × List RecLine) :=
  match gs with
  | [] => [(tag, [l])]
  | (t, ls) :: rest =>
      if t = tag then (t, ls ++ [l]) :: rest else (t, ls) :: addToGroups rest tag l

def recProcess (isZeroTotal : ℚ → Bool) :
    List (String × List RecLine) → Except String (List (String × RecOutcome))
  | [] => .ok []
  | (t, ls) :: rest =>
      match recDecision isZeroTotal ls with
      | .error e => .error e
      | .ok o =>
          match recProcess isZeroTotal rest with
          | .error e => .error e
          | .ok os => .ok ((t, o) :: os)

/-- The whole of reconcile_move_lines over the created lines: filter the
lines carrying a mark, group by mark, decide each group in order. -/
def reconcile_move_lines (isZeroTotal : ℚ → Bool) (lines : List RecLine) :
    Except String (List (String × RecOutcome)) :=
  let tagged := lines.filterMap (fun l =>
    match l.importReconcile with
    | some t => some (t, l)
    | none => none)
  recProcess isZeroTotal (tagged.foldl (fun gs p => addToGroups gs p.1 p.2) [])

/-! ## Concrete inputs for the grouping scan claims -/

/-- A validated line on journal 1 dated 2020-01-01. -/
def vl (n : Nat) (r : Option String) (c d : ℚ) : VLine :=
  ⟨n, 1, r, "20200101", c, d⟩

/-- Two blocks: block A (ref A) sums to -1, block B (ref B) sums to +1. -/
def c1pivot : List VLine :=
  [vl 1 (some "A") 0 100, vl 2 (some "A") 99 0,
   vl 3 (some "B") 0 99, vl 4 (some "B") 100 0]

def c1moveA : Move := ⟨1, some "A", "20200101", [vl 1 (some "A") 0 100, vl 2 (some "A") 99 0]⟩

def c1moveB : Move := ⟨1, some "B", "20200101", [vl 3 (some "B") 0 99, vl 4 (some "B") 100 0]⟩

/-- Claim C1, counterexample.  Block A (lines 1 to 2) sums to -1, far from
zero at precision 1/100.  When the scan reaches line 3, whose key differs,
an entry is open and out of balance, so the claim predicts a failure citing
line 2; but no entry has been sealed yet, so the guard of the source (which
tests the sealed list, not the open entry) stays silent, block A is sealed
unbalanced, and the whole scan succeeds because block B compensates. -/
theorem c1_counterexample :
    groupMoves (1 / 100) c1pivot = .ok [c1moveA, c1moveB]
      ∧ moveBalance c1moveA = -1
      ∧ float_is_zero_rounding (1 / 100) (-1) = false := by
  refine ⟨?_, ?_, ?_⟩
  · norm_num [groupMoves, c1pivot, scanLines, scanStep, initScanState, keyMatches,
      float_is_zero_rounding, ratAbs, vl, newMoveFrom, appendLine, c1moveA, c1moveB,
      show ("A" : String) ≠ "B" from by decide]
  · norm_num [moveBalance, c1moveA, vl]
  · norm_num [float_is_zero_rounding, ratAbs]

/-- Claim C1 as amended: the failure citing line N-1 happens whenever the
line does not extend the open entry, the running balance is not zero
within precision, and at least one entry has already been sealed (the
source guards the balance error with the sealed move list being nonempty,
so an unbalanced first entry escapes this check). -/
theorem c1_amended (prec : ℚ) (s : ScanState) (l : VLine) (ls : List VLine)
    (hmoves : s.moves ≠ []) (hbal : float_is_zero_rounding prec s.curBalance = false)
    (hkey : keyMatches s l = false) :
    scanLines prec s (l :: ls) = .error (.notBalanced ((l.line : Int) - 1) s.curBalance) := by
  have hne : s.moves.isEmpty = false := by
    cases h : s.moves with
    | nil => exact absurd h hmoves
    | cons a as => rfl
  simp [scanLines, scanStep, hkey, hbal, hne]

def c1state : ScanState := ⟨[c1moveA], some 1, some "A", some "20200101", -1, some c1moveA⟩

theorem c1_amended_witness :
    scanLines (1 / 100) c1state [vl 3 (some "B") 0 99]
      = .error (.notBalanced ((3 : Int) - 1) (-1)) := by
  exact c1_amended (1 / 100) c1state (vl 3 (some "B") 0 99) []
    (by simp [c1state])
    (by norm_num [float_is_zero_rounding, ratAbs, c1state])
    (by simp [keyMatches, c1state, vl])

/-! ### Claim C2: the running balance is never reset -/

lemma scanStep_balance (prec : ℚ) (s : ScanState) (l : VLine) (s2 : ScanState)
    (h : scanStep prec s l = .ok s2) :
    s2.curBalance = s.curBalance + (l.credit - l.debit) := by
  unfold scanStep at h
  split at h
  · split at h
    · obtain rfl := Except.ok.inj h
      rfl
    · exact Except.noConfusion h
  · split at h
    · exact Except.noConfusion h
    · split at h
      · split at h
        · obtain rfl := Except.ok.inj h
          rfl
        · exact Except.noConfusion h
      · obtain rfl := Except.ok.inj h
        rfl

/-- Claim C2 as amended: the scan never resets the running balance when a
new entry starts; over any successful stretch of the scan the balance
moves by the cumulative sum of credit minus debit of all lines consumed,
regardless of how many entries were sealed inside the stretch.  The
balance tested at a seal point is therefore the sum over the lines of the
entry plus the residual of every earlier entry. -/
theorem c2_amended (prec : ℚ) (s : ScanState) (lines : List VLine) (s2 : ScanState)
    (h : scanLines prec s lines = .ok s2) :
    s2.curBalance = s.curBalance + (lines.map (fun l => l.credit - l.debit)).sum := by
  induction lines generalizing s with
  | nil =>
      unfold scanLines at h
      obtain rfl := Except.ok.inj h
      simp
  | cons l ls ih =>
      unfold scanLines at h
      cases hstep : scanStep prec s l with
      | error e => rw [hstep] at h; exact Except.noConfusion h
      | ok s3 =>
          rw [hstep] at h
          have h3 := scanStep_balance prec s l s3 hstep
          have h2 := ih s3 h
          rw [h2, h3]
          simp
          ring

def c2state1 : ScanState :=
  ⟨[], some 1, some "A", some "20200101", -100, some (newMoveFrom (vl 1 (some "A") 0 100))⟩

theorem c2_amended_witness :
    c2state1.curBalance
      = initScanState.curBalance
        + ([vl 1 (some "A") 0 100].map (fun l => l.credit - l.debit)).sum :=
  c2_amended (1 / 100) initScanState [vl 1 (some "A") 0 100] c2state1
    (by norm_num [scanLines, scanStep, initScanState, keyMatches,
      float_is_zero_rounding, ratAbs, vl, newMoveFrom, c2state1])

/-- Two blocks with matching keys inside each block: block A (lines 1 to 2)
sums to 1/250, zero within precision 1/100; block B (lines 3 to 4) sums to
1/250 as well.  The claim says the balance tested when block B is sealed at
end of input is the sum over the lines of block B only, which is zero
within precision, so assembly should succeed; the code accumulates the
residual of block A and fails on the doubled total 1/125. -/
def c2pivot : List VLine :=
  [vl 1 (some "A") 0 100, vl 2 (some "A") (25001 / 250) 0,
   vl 3 (some "B") 0 50, vl 4 (some "B") (12501 / 250) 0]

/-- Claim C2, counterexample: the balance reported for the final entry is
1/125, not the 1/250 that the lines of that entry sum to, and the scan
fails even though the final entry is balanced within precision on its own. -/
theorem c2_counterexample :
    groupMoves (1 / 100) c2pivot = .error (.notBalancedLast (1 / 125))
      ∧ ((c2pivot.drop 2).map (fun l => l.credit - l.debit)).sum = 1 / 250
      ∧ float_is_zero_rounding (1 / 100) (1 / 250) = true := by
  refine ⟨?_, ?_, ?_⟩
  · norm_num [groupMoves, c2pivot, scanLines, scanStep, initScanState, keyMatches,
      float_is_zero_rounding, ratAbs, vl, newMoveFrom, appendLine,
      show ("A" : String) ≠ "B" from by decide]
  · norm_num [c2pivot, vl]
  · norm_num [float_is_zero_rounding, ratAbs]

/-! ### Claim C3: minimum entry size -/

lemma scanStep_moves_min2 (prec : ℚ) (s : ScanState) (l : VLine) (s2 : ScanState)
    (h : scanStep prec s l = .ok s2) (hs : ∀ m ∈ s.moves, 2 ≤ m.lines.length) :
    ∀ m ∈ s2.moves, 2 ≤ m.lines.length := by
  unfold scanStep at h
  split at h
  · split at h
    · obtain rfl := Except.ok.inj h
      exact hs
    · exact Except.noConfusion h
  · split at h
    · exact Except.noConfusion h
    · rename_i hguard
      split at h
      · rename_i m hcur
        split at h
        · rename_i hlen
          obtain rfl := Except.ok.inj h
          intro m2 hm2
          simp only [List.mem_append, List.mem_singleton] at hm2
          rcases hm2 with hm2 | rfl
          · exact hs m2 hm2
          · omega
        · exact Except.noConfusion h
      · obtain rfl := Except.ok.inj h
        exact hs

lemma scanLines_moves_min2 (prec : ℚ) (s : ScanState) (lines : List VLine) (s2 : ScanState)
    (h : scanLines prec s lines = .ok s2) (hs : ∀ m ∈ s.moves, 2 ≤ m.lines.length) :
    ∀ m ∈ s2.moves, 2 ≤ m.lines.length := by
  induction lines generalizing s with
  | nil =>
      unfold scanLines at h
      obtain rfl := Except.ok.inj h
      exact hs
  | cons l ls ih =>
      unfold scanLines at h
      cases hstep : scanStep prec s l with
      | error e => rw [hstep] at h; exact Except.noConfusion h
      | ok s3 =>
          rw [hstep] at h
          exact ih s3 h (scanStep_moves_min2 prec s l s3 hstep hs)

/-- Claim C3 as amended: every entry sealed during the scan has at least
two lines (the assertion in the loop enforces it), but the final entry
sealed at end of input is appended without any length check, so only the
moves before the last one are guaranteed to have two or more lines. -/
theorem c3_amended (prec : ℚ) (lines : List VLine) (moves : List Move)
    (h : groupMoves prec lines = .ok moves) :
    ∀ m ∈ moves.dropLast, 2 ≤ m.lines.length := by
  unfold groupMoves at h
  cases hscan : scanLines prec initScanState lines with
  | error e => rw [hscan] at h; exact Except.noConfusion h
  | ok s =>
      rw [hscan] at h
      have hinv : ∀ m ∈ s.moves, 2 ≤ m.lines.length :=
        scanLines_moves_min2 prec initScanState lines s hscan (by simp [initScanState])
      dsimp only at h
      cases hcur : s.curMove with
      | some m =>
          rw [hcur] at h
          dsimp only at h
          split at h
          · obtain rfl := (Except.ok.inj h).symm
            intro m2 hm2
            rw [List.dropLast_concat] at hm2
            exact hinv m2 hm2
          · exact Except.noConfusion h
      | none =>
          rw [hcur] at h
          dsimp only at h
          split at h
          · obtain rfl := (Except.ok.inj h).symm
            intro m2 hm2
            exact hinv m2 (List.dropLast_subset _ hm2)
          · exact Except.noConfusion h

def c3wpivot : List VLine :=
  [vl 1 (some "A") 0 100, vl 2 (some "A") 100 0,
   vl 3 (some "B") 0 50, vl 4 (some "B") 50 0]

def c3wmoveA : Move := ⟨1, some "A", "20200101", [vl 1 (some "A") 0 100, vl 2 (some "A") 100 0]⟩

def c3wmoveB : Move := ⟨1, some "B", "20200101", [vl 3 (some "B") 0 50, vl 4 (some "B") 50 0]⟩

theorem c3_amended_witness : 2 ≤ c3wmoveA.lines.length := by
  have h : groupMoves (1 / 100) c3wpivot = .ok [c3wmoveA, c3wmoveB] := by
    norm_num [groupMoves, c3wpivot, scanLines, scanStep, initScanState, keyMatches,
      float_is_zero_rounding, ratAbs, vl, newMoveFrom, appendLine, c3wmoveA, c3wmoveB,
      show ("A" : String) ≠ "B" from by decide]
  exact c3_amended (1 / 100) c3wpivot [c3wmoveA, c3wmoveB] h c3wmoveA (by simp)

/-- A single line with credit and debit both zero: the scan opens an entry
for it, the end of input seal appends it with no length check, and the
final balance test passes, so a one line entry is emitted. -/
def c3pivot : List VLine := [vl 1 none 0 0]

def c3move : Move := ⟨1, none, "20200101", [vl 1 none 0 0]⟩

/-- Claim C3, counterexample: the final seal emits an entry with a single
line. -/
theorem c3_counterexample :
    groupMoves (1 / 100) c3pivot = .ok [c3move] ∧ c3move.lines.length = 1 := by
  constructor
  · norm_num [groupMoves, c3pivot, scanLines, scanStep, initScanState, keyMatches,
      float_is_zero_rounding, ratAbs, vl, newMoveFrom, c3move]
  · rfl

/-! ### Claim C4: the append condition of the grouping scan -/

/-- Claim C4: a validated line is appended to the open entry exactly when
its key (journal, ref, date) equals the current group key and the running
balance is nonzero beyond rounding precision; in every other case
(including a matching key with a balance already zero within precision)
the scan does not append, so in particular a balanced entry immediately
followed by lines with the same key starts a new entry. -/
theorem c4_append_iff (prec : ℚ) (s : ScanState) (l : VLine) (m : Move)
    (hm : s.curMove = some m) :
    scanStep prec s l
        = .ok { s with curMove := some (appendLine m l),
                       curBalance := s.curBalance + (l.credit - l.debit) }
      ↔ (keyMatches s l = true ∧ float_is_zero_rounding prec s.curBalance = false) := by
  constructor
  · intro h
    by_cases hk : (keyMatches s l && !float_is_zero_rounding prec s.curBalance) = true
    · simp only [Bool.and_eq_true, Bool.not_eq_true'] at hk
      exact hk
    · exfalso
      unfold scanStep at h
      rw [if_neg (by simpa using hk)] at h
      split at h
      · exact Except.noConfusion h
      · split at h
        · split at h
          · have := congrArg ScanState.moves (Except.ok.inj h)
            simp at this
          · exact Except.noConfusion h
        · rw [hm] at *
          simp_all
  · intro ⟨hk, hz⟩
    unfold scanStep
    rw [if_pos (by simp [hk, hz]), hm]

def c4state : ScanState :=
  ⟨[], some 1, some "A", some "20200101", -100, some ⟨1, some "A", "20200101", [vl 1 (some "A") 0 100]⟩⟩

theorem c4_append_iff_witness :
    scanStep (1 / 100) c4state (vl 2 (some "A") 99 0)
        = .ok { c4state with
                  curMove := some (appendLine ⟨1, some "A", "20200101", [vl 1 (some "A") 0 100]⟩
                    (vl 2 (some "A") 99 0)),
                  curBalance := c4state.curBalance + ((vl 2 (some "A") 99 0).credit
                    - (vl 2 (some "A") 99 0).debit) }
      ↔ (keyMatches c4state (vl 2 (some "A") 99 0) = true
          ∧ float_is_zero_rounding (1 / 100) c4state.curBalance = false) :=
  c4_append_iff (1 / 100) c4state (vl 2 (some "A") 99 0)
    ⟨1, some "A", "20200101", [vl 1 (some "A") 0 100]⟩ rfl

/-! ### Claim C9: no creation call is issued on failure -/

lemma validateLine_no_create (res : Resolver) (l : PivotLine) :
    ∀ c ∈ (validateLine res l).1, isCreate c = false := by
  intro c hc
  unfold validateLine at hc
  cases hp : l.partner <;> rw [hp] at hc <;>
    cases ha : l.analytic <;> rw [ha] at hc <;>
    dsimp only at hc <;>
    repeat' split at hc <;>
    aesop

lemma validateAll_no_create (res : Resolver) (ls : List PivotLine) :
    ∀ c ∈ (validateAll res ls).1, isCreate c = false := by
  induction ls with
  | nil => intro c hc; simp [validateAll] at hc
  | cons l ls ih =>
      intro c hc
      unfold validateAll at hc
      dsimp only at hc
      split at hc
      · exact validateLine_no_create res l c hc
      · dsimp only at hc
        rcases List.mem_append.mp hc with h1 | h2
        · exact validateLine_no_create res l c h1
        · exact ih c h2

/-- Claim C9: if create_moves_from_pivot fails in any way (a per line
validation error, a resolver failure, or a balance error of the grouping
scan), the call trace contains no entry creation call: phase 1 and all
balance checks run before the first creation call. -/
theorem c9_no_create_on_failure (res : Resolver) (prec : ℚ) (postFlag : Bool)
    (pivot : List PivotLine) (e : ImpErr)
    (h : (create_moves_from_pivot res prec postFlag pivot).2 = .error e) :
    ∀ c ∈ (create_moves_from_pivot res prec postFlag pivot).1, isCreate c = false := by
  intro c hc
  unfold create_moves_from_pivot at h hc
  dsimp only at h hc
  cases hv : (validateAll res pivot).2 with
  | error e2 =>
      rw [hv] at hc
      exact validateAll_no_create res pivot c hc
  | ok vlines =>
      rw [hv] at h hc
      dsimp only at h hc
      cases hg : groupMoves prec vlines with
      | error e3 =>
          rw [hg] at hc
          exact validateAll_no_create res pivot c hc
      | ok moves =>
          rw [hg] at h
          exact Except.noConfusion h

def c9res : Resolver := ⟨fun _ => none, fun _ => none, fun _ => none, fun _ => none⟩

def c9pivot : List PivotLine :=
  [⟨1, "VT", "411000", none, none, some "x", some "20200101", some 0, some 0, none⟩]

theorem c9_witness : isCreate (ExtCall.matchAccount "411000") = false :=
  c9_no_create_on_failure c9res (1 / 100) false c9pivot
    (.validation (.accountNotFound 1)) rfl (ExtCall.matchAccount "411000")
    (by simp [create_moves_from_pivot, validateAll, validateLine, c9res, c9pivot])

/-! ### Claims C5 and C6: the reconciliation matcher -/

def acct411 : Account := ⟨1, "411000", true⟩

/-- Two lines sharing mark R1, total exactly zero, same reconcilable
account, different partners: every rule up to the partner rule passes,
and the skip log of the partner rule joins the int keys. -/
def c5lines : List RecLine :=
  [⟨some "R1", 10, 0, acct411, some 1⟩, ⟨some "R1", 0, 10, acct411, some 2⟩]

/-- Claim C5: the matcher is supposed never to raise, but when the
different partners rule fails its skip log joins the partner dict keys,
which are ints or False, so the join raises TypeError and the matcher
aborts instead of logging and skipping.  The total of the group is
exactly 0, accepted by any zero test, in particular by the
precision_digits test the source calls (first conjunct). -/
theorem c5_matcher_raises (isZeroTotal : ℚ → Bool) (h : isZeroTotal 0 = true) :
    float_is_zero_digits (1 / 100) 0
      ∧ reconcile_move_lines isZeroTotal c5lines
          = .error "TypeError: sequence item 0: expected str instance" := by
  refine ⟨float_is_zero_digits_centi_zero, ?_⟩
  norm_num [reconcile_move_lines, c5lines, acct411, recProcess, recDecision,
    recGroupTotals, dictInsert, addToGroups, joinPartnerKeys, h]

theorem c5_witness :
    float_is_zero_digits (1 / 100) 0
      ∧ reconcile_move_lines (fun _ => true) c5lines
          = .error "TypeError: sequence item 0: expected str instance" :=
  c5_matcher_raises (fun _ => true) rfl

/-- Two lines sharing mark R1, same reconcilable account, same partner,
total 51/5 - 10 = 1/5 (0.20). -/
def c6lines : List RecLine :=
  [⟨some "R1", 51 / 5, 0, acct411, some 1⟩, ⟨some "R1", 0, 10, acct411, some 1⟩]

/-- Claim C6: the matcher passes the currency rounding increment prec as
precision_digits, so its epsilon is 10 ** (-prec), not prec.  At
prec = 1/100 a total of 1/5 is zero for the digits test (first conjunct)
while the rounding test used by the assembler rejects it (second
conjunct); consequently the matcher instructs reconciliation for a group
whose total, 0.20, is far beyond the rounding unit 0.01 (third conjunct,
for any Boolean reflection of the digits test at the total). -/
theorem c6_precision_digits_bug (isZeroTotal : ℚ → Bool)
    (h : isZeroTotal (1 / 5) = true) :
    float_is_zero_digits (1 / 100) (1 / 5)
      ∧ float_is_zero_rounding (1 / 100) (1 / 5) = false
      ∧ reconcile_move_lines isZeroTotal c6lines = .ok [("R1", RecOutcome.reconciled)] := by
  refine ⟨float_is_zero_digits_centi_fifth, ?_, ?_⟩
  · norm_num [float_is_zero_rounding, ratAbs]
  · norm_num [reconcile_move_lines, c6lines, acct411, recProcess, recDecision,
      recGroupTotals, dictInsert, addToGroups, joinPartnerKeys, h]

theorem c6_witness :
    float_is_zero_digits (1 / 100) (1 / 5)
      ∧ float_is_zero_rounding (1 / 100) (1 / 5) = false
      ∧ reconcile_move_lines (fun _ => true) c6lines
          = .ok [("R1", RecOutcome.reconciled)] :=
  c6_precision_digits_bug (fun _ => true) rfl

/-! ### Claim C7: the fixed width decoder -/

/-- Claim C7: a row shorter than the 54 character minimum is silently
skipped (the scan continues on the rest with the next line number, no
pivot emitted, no error), and every emitted pivot line carries the parsed
integer at offsets 42:55 divided by 100, on the credit side when the
character at offset 41 is C and on the debit side when it is D (reading
amounts numerically, Python False counting as 0). -/
theorem c7_quadra_skip_and_amounts :
    (∀ (i : Nat) (ls : List String) (l : String), l.length < 54 →
        quadraScan i (l :: ls) = quadraScan (i + 1) ls)
  ∧ (∀ (i : Nat) (ls : List String) (res : List QPivot),
      quadraScan i ls = .ok res → ∀ p ∈ res, ∃ l, l ∈ ls ∧ ∃ n : Int,
        pyInt (quadraAmtStr l) = some n ∧
        ((l.toList.getD 41 ' ' = 'C' ∧ pyNum p.credit = (n : ℚ) / 100 ∧ pyNum p.debit = 0)
          ∨ (l.toList.getD 41 ' ' = 'D' ∧ pyNum p.debit = (n : ℚ) / 100
              ∧ pyNum p.credit = 0))) := by
  constructor
  · intro i ls l h
    simp only [quadraScan]
    rw [if_pos h]
  · intro i ls
    induction ls generalizing i with
    | nil =>
        intro res h p hp
        unfold quadraScan at h
        obtain rfl := Except.ok.inj h
        exact absurd hp (List.not_mem_nil p)
    | cons l ls ih =>
        intro res h p hp
        unfold quadraScan at h
        split at h
        · obtain ⟨l2, hl2, rest⟩ := ih (i + 1) res h p hp
          exact ⟨l2, List.mem_cons_of_mem l hl2, rest⟩
        · split at h
          · rename_i hguard
            split at h
            · exact Except.noConfusion h
            · rename_i n hn
              split at h
              · split at h
                · exact Except.noConfusion h
                · rename_i ps hps
                  obtain rfl := (Except.ok.inj h).symm
                  rcases List.mem_cons.mp hp with rfl | hp2
                  · refine ⟨l, List.mem_cons_self l ls, n, hn, ?_⟩
                    have hg2 : l.toList.getD 41 ' ' = 'C' ∨ l.toList.getD 41 ' ' = 'D' := by
                      simp only [Bool.and_eq_true, Bool.or_eq_true, decide_eq_true_eq] at hguard
                      exact hguard.2
                    rcases hg2 with hC | hD
                    · left
                      refine ⟨hC, ?_, ?_⟩
                      · dsimp only [quadraVals, pyNum]
                        rw [hC]
                        by_cases hz : ((n : ℚ) / 100) = 0 <;>
                          simp [hz, show (('C' : Char) = 'C') = True from by simp]
                      · dsimp only [quadraVals, pyNum]
                        rw [hC]
                        simp [show ¬(('C' : Char) = 'D') from by decide]
                    · right
                      refine ⟨hD, ?_, ?_⟩
                      · dsimp only [quadraVals, pyNum]
                        rw [hD]
                        by_cases hz : ((n : ℚ) / 100) = 0 <;>
                          simp [hz, show (('D' : Char) = 'D') = True from by simp]
                      · dsimp only [quadraVals, pyNum]
                        rw [hD]
                        simp [show ¬(('D' : Char) = 'C') from by decide]
                  · obtain ⟨l2, hl2, rest⟩ := ih (i + 1) ps hps p hp2
                    exact ⟨l2, List.mem_cons_of_mem l hl2, rest⟩
              · exact Except.noConfusion h
          · obtain ⟨l2, hl2, rest⟩ := ih (i + 1) res h p hp
            exact ⟨l2, List.mem_cons_of_mem l hl2, rest⟩

/-- A well formed fixed width row: M, account, journal, filler, date
010120, filler, a 20 character label, sign C, amount 12345 cents. -/
def c7row : String := "M40100000VTXXX010120XAAAAAAAAAAAAAAAAAAAAC0000000012345"

lemma c7row_scan : quadraScan 0 [c7row] = .ok [quadraVals 1 c7row 12345] := by
  have hlen : ¬(c7row.length < 54) := by decide
  have hm : (decide (c7row.toList.getD 0 ' ' = 'M')
      && (decide (c7row.toList.getD 41 ' ' = 'C')
          || decide (c7row.toList.getD 41 ' ' = 'D'))) = true := by decide
  have hpy : pyInt (quadraAmtStr c7row) = some 12345 := by decide
  have hdate : strptimeDDMMYY (String.mk ((c7row.toList.drop 14).take 6)) = true := by decide
  simp only [quadraScan]
  rw [if_neg hlen, if_pos hm, hpy, hdate]
  rfl

theorem c7_witness :
    quadraScan 0 ["x"] = quadraScan 1 []
      ∧ pyNum (quadraVals 1 c7row 12345).credit = ((12345 : Int) : ℚ) / 100
      ∧ pyNum (quadraVals 1 c7row 12345).debit = 0 := by
  refine ⟨c7_quadra_skip_and_amounts.1 0 [] "x" (by decide), ?_, ?_⟩
  all_goals
    obtain ⟨l, hl, n, hn, hcase⟩ :=
      c7_quadra_skip_and_amounts.2 0 [c7row] [quadraVals 1 c7row 12345] c7row_scan
        (quadraVals 1 c7row 12345) (List.mem_cons_self _ _)
    rw [List.mem_singleton] at hl
    subst hl
    have h12 : pyInt (quadraAmtStr c7row) = some 12345 := by decide
    rw [h12] at hn
    obtain rfl := Option.some.inj hn
    rcases hcase with ⟨hC, hcr, hdb⟩ | ⟨hD, hdb2, hcr2⟩
  · exact hcr
  · exact absurd hD (by decide)
  · exact hdb
  · exact absurd hD (by decide)

/-! ### Claim C8: decoders and negative amounts -/

/-- The parsed debit and credit fields of an extenso record, when they
parse at all, are nonnegative. -/
def extRowNonneg (row : List String) : Prop :=
  (∀ q : ℚ, pyFloat (commaToDot (orStr (getF row 8) "0")) = some q → 0 ≤ q)
    ∧ (∀ q : ℚ, pyFloat (commaToDot (orStr (getF row 9) "0")) = some q → 0 ≤ q)

/-- The parsed amount field of a cielpaye record, when it parses at all,
is nonnegative. -/
def cielRowNonneg (row : List String) : Prop :=
  ∀ q : ℚ, pyFloat (commaToDot ((getF row 5).getD "")) = some q → 0 ≤ q

lemma extensoRow_nonneg (i : Nat) (row : List String) (p : ExtPivot)
    (h : extensoRow i row = .ok p) (hr : extRowNonneg row) :
    0 ≤ p.debit ∧ 0 ≤ p.credit := by
  unfold extensoRow at h
  split at h
  · exact Except.noConfusion h
  · rename_i credit hcredit
    split at h
    · exact Except.noConfusion h
    · rename_i debit hdebit
      split at h
      · exact Except.noConfusion h
      · split at h
        · obtain rfl := (Except.ok.inj h).symm
          exact ⟨hr.1 debit hdebit, hr.2 credit hcredit⟩
        · exact Except.noConfusion h

lemma extensoScan_nonneg (rows : List (List String)) :
    ∀ (i : Nat) (res : List ExtPivot), extensoScan i rows = .ok res →
      (∀ r ∈ rows, extRowNonneg r) → ∀ p ∈ res, 0 ≤ p.debit ∧ 0 ≤ p.credit := by
  induction rows with
  | nil =>
      intro i res h _ p hp
      unfold extensoScan at h
      obtain rfl := Except.ok.inj h
      exact absurd hp (List.not_mem_nil p)
  | cons r rs ih =>
      intro i res h hr p hp
      unfold extensoScan at h
      split at h
      · exact Except.noConfusion h
      · rename_i p0 hp0
        split at h
        · exact Except.noConfusion h
        · rename_i ps hps
          obtain rfl := (Except.ok.inj h).symm
          rcases List.mem_cons.mp hp with rfl | hp2
          · exact extensoRow_nonneg (i + 1) r p hp0 (hr r (List.mem_cons_self r rs))
          · exact ih (i + 1) ps hps (fun r2 hr2 => hr r2 (List.mem_cons_of_mem r hr2)) p hp2

lemma cielpayeRow_nonneg (i : Nat) (row : List String) (p : CielPivot)
    (h : cielpayeRow i row = .ok (some p)) (hr : cielRowNonneg row) :
    0 ≤ p.debit ∧ 0 ≤ p.credit := by
  unfold cielpayeRow at h
  split at h
  · split at h
    · exact Except.noConfusion h
    · rename_i amount hamount
      split at h
      · have h2 := Option.some.inj (Except.ok.inj h)
        have hq := hr amount hamount
        obtain rfl := h2.symm
        constructor
        · show 0 ≤ (if getF row 6 = some "D" ∧ amount ≠ 0 then amount else 0)
          split
          · exact hq
          · exact le_refl 0
        · show 0 ≤ (if getF row 6 = some "C" ∧ amount ≠ 0 then amount else 0)
          split
          · exact hq
          · exact le_refl 0
      · exact Except.noConfusion h
  · exact Option.noConfusion (Except.ok.inj h)

lemma cielpayeScan_nonneg (rows : List (List String)) :
    ∀ (i : Nat) (res : List CielPivot), cielpayeScan i rows = .ok res →
      (∀ r ∈ rows, cielRowNonneg r) → ∀ p ∈ res, 0 ≤ p.debit ∧ 0 ≤ p.credit := by
  induction rows with
  | nil =>
      intro i res h _ p hp
      unfold cielpayeScan at h
      obtain rfl := Except.ok.inj h
      exact absurd hp (List.not_mem_nil p)
  | cons r rs ih =>
      intro i res h hr p hp
      unfold cielpayeScan at h
      split at h
      · exact Except.noConfusion h
      · rename_i p0 hp0
        split at h
        · exact Except.noConfusion h
        · rename_i ps hps
          split at h
          · obtain rfl := (Except.ok.inj h).symm
            rcases List.mem_cons.mp hp with rfl | hp2
            · exact cielpayeRow_nonneg (i + 1) r p hp0 (hr r (List.mem_cons_self r rs))
            · exact ih (i + 1) ps hps (fun r2 hr2 => hr r2 (List.mem_cons_of_mem r hr2)) p hp2
          · obtain rfl := (Except.ok.inj h).symm
            exact ih (i + 1) res hps (fun r2 hr2 => hr r2 (List.mem_cons_of_mem r hr2)) p hp

/-- Claim C8 as amended: the decoders do not enforce nonnegativity; the
emitted debit and credit values of the extenso and cielpaye decoders are
nonnegative exactly when the parsed source amounts are nonnegative. -/
theorem c8_amended :
    (∀ (rows : List (List String)) (res : List ExtPivot),
        extenso2pivot rows = .ok res → (∀ r ∈ rows, extRowNonneg r) →
        ∀ p ∈ res, 0 ≤ p.debit ∧ 0 ≤ p.credit)
  ∧ (∀ (rows : List (List String)) (res : List CielPivot),
        cielpaye2pivot rows = .ok res → (∀ r ∈ rows, cielRowNonneg r) →
        ∀ p ∈ res, 0 ≤ p.debit ∧ 0 ≤ p.credit) :=
  ⟨fun rows res h hr => extensoScan_nonneg rows 0 res h hr,
   fun rows res h hr => cielpayeScan_nonneg rows 0 res h hr⟩

/-- An extenso record whose debit field holds -5: the decoder parses and
emits it unchanged. -/
def c8row : List String := ["VT", "01012020", "", "401000", "", "", "", "", "-5", "0"]

def c8p : ExtPivot := ⟨some "VT", some "401000", 0, -5, "01012020", 1⟩

/-- Claim C8, counterexample: a pivot line with a negative debit. -/
theorem c8_counterexample :
    extenso2pivot [c8row] = .ok [c8p] ∧ c8p.debit < 0 := by
  constructor
  · have h : extenso2pivot [c8row]
        = .ok [⟨some "VT", some "401000", (1 : ℚ) * (digitsVal ['0'] : ℚ),
                (-1 : ℚ) * (digitsVal ['5'] : ℚ), "01012020", 1⟩] := rfl
    rw [h, show digitsVal ['0'] = 0 from by decide, show digitsVal ['5'] = 5 from by decide]
    norm_num [c8p]
  · norm_num [c8p]

def c8wrow : List String := ["VT", "01012020", "", "401000", "", "", "", "", "5", "0"]

def c8wp : ExtPivot :=
  ⟨some "VT", some "401000", (1 : ℚ) * (digitsVal ['0'] : ℚ),
   (1 : ℚ) * (digitsVal ['5'] : ℚ), "01012020", 1⟩

lemma c8w_nonneg : ∀ r ∈ [c8wrow], extRowNonneg r := by
  intro r hrr
  rw [List.mem_singleton] at hrr
  subst hrr
  constructor
  · intro q hq
    have h5 : pyFloat (commaToDot (orStr (getF c8wrow 8) "0"))
        = some ((1 : ℚ) * (digitsVal ['5'] : ℚ)) := rfl
    rw [h5] at hq
    obtain rfl := Option.some.inj hq
    positivity
  · intro q hq
    have h0 : pyFloat (commaToDot (orStr (getF c8wrow 9) "0"))
        = some ((1 : ℚ) * (digitsVal ['0'] : ℚ)) := rfl
    rw [h0] at hq
    obtain rfl := Option.some.inj hq
    positivity

theorem c8_witness : 0 ≤ c8wp.debit ∧ 0 ≤ c8wp.credit :=
  c8_amended.1 [c8wrow] [c8wp] rfl c8w_nonneg c8wp (List.mem_cons_self _ _)

/-! ### Claim C10: optional reference fields on blank source data -/

/-- Claim C10 as amended: the genericcsv decoder omits the partner and
analytic keys entirely when the source field is blank, and the payfit
decoder omits the analytic key when its cell is blank; the nibelis
decoder instead always carries the analytic key, holding False (never the
empty string) when the source field is blank. -/
theorem c10_amended :
    (∀ (i : Nat) (row : List String) (p : GenPivot), genRow i row = .ok p →
        ((strTruthy (getF row 3) = false → p.partner = PyDictVal.absent)
          ∧ (strTruthy (getF row 3) = true →
              p.partner = PyDictVal.code ((getF row 3).getD ""))
          ∧ (strTruthy (getF row 4) = false → p.analytic = PyDictVal.absent)
          ∧ (strTruthy (getF row 4) = true →
              p.analytic = PyDictVal.code ((getF row 4).getD ""))))
  ∧ (∀ (i : Nat) (row : List String) (p : NibPivot), nibRow i row = .ok p →
        ((strTruthy (getF row 31) = false → p.analytic = PyDictVal.pyFalse)
          ∧ (strTruthy (getF row 31) = true →
              p.analytic = PyDictVal.code ((getF row 31).getD ""))))
  ∧ (∀ (i : Nat) (row : List String) (p : PayPivot), payfitRow i row = .ok (some p) →
        ((((getF row 3).getD "").isEmpty = true → p.analytic = PyDictVal.absent)
          ∧ (((getF row 3).getD "").isEmpty = false →
              p.analytic = PyDictVal.code ((getF row 3).getD "")))) := by
  refine ⟨?_, ?_, ?_⟩
  · intro i row p h
    unfold genRow at h
    split at h
    · exact Except.noConfusion h
    · split at h
      · exact Except.noConfusion h
      · split at h
        · exact Except.noConfusion h
        · split at h
          · obtain rfl := (Except.ok.inj h).symm
            refine ⟨fun hf => ?_, fun ht => ?_, fun hf => ?_, fun ht => ?_⟩ <;>
              simp_all
          · exact Except.noConfusion h
  · intro i row p h
    unfold nibRow at h
    split at h
    · exact Except.noConfusion h
    · split at h
      · exact Except.noConfusion h
      · split at h
        · exact Except.noConfusion h
        · split at h
          · obtain rfl := (Except.ok.inj h).symm
            refine ⟨fun hf => ?_, fun ht => ?_⟩ <;> simp_all
          · exact Except.noConfusion h
  · intro i row p h
    unfold payfitRow at h
    split at h
    · exact Option.noConfusion (Except.ok.inj h)
    · split at h
      · exact Except.noConfusion h
      · split at h
        · exact Option.noConfusion (Except.ok.inj h)
        · split at h
          · exact Except.noConfusion h
          · split at h
            · exact Except.noConfusion h
            · obtain rfl := (Option.some.inj (Except.ok.inj h)).symm
              refine ⟨fun hf => ?_, fun ht => ?_⟩ <;> simp_all

def c10hdr : List String := []

/-- A nibelis record with journal VT, date 200101, account 401000,
amount 10, sign D, label wages, and a blank (missing) analytic field. -/
def c10row : List String :=
  ["", "", "VT", "", "", "", "", "200101", "", "", "", "", "", "", "401000", "", "",
   "10", "", "D", "", "", "wages"]

/-- Claim C10, counterexample: the nibelis decoder does not omit the
analytic key on blank source data; the emitted pivot line carries the
analytic key with value False, which is not the absent key. -/
theorem c10_counterexample :
    (nibelis2pivot [c10hdr, c10row]).map (fun ps => ps.map NibPivot.analytic)
        = .ok [PyDictVal.pyFalse]
      ∧ PyDictVal.pyFalse ≠ PyDictVal.absent := by
  constructor
  · rfl
  · decide

def c10grow : List String := ["01/01/2020", "VT", "401000", "", "", "x", "", ""]

def c10gp : GenPivot :=
  ⟨some "VT", some "401000", 0, 0, "01/01/2020", some "x", 1,
   PyDictVal.absent, PyDictVal.absent⟩

theorem c10_witness : c10gp.partner = PyDictVal.absent :=
  (c10_amended.1 1 c10grow c10gp rfl).1 rfl

end AccountMoveImport
